import Mathlib

/-!
Verification development for the CyberAttackSimulatorEnv transition engine
(`cyber_attack_simulator/envs/environment.py`).

The transition engine (`step`, `_action_traffic_permitted`, `_update_state`,
`_update_reachable`, `_is_goal`) is translated directly from
`environment.py`.  The collaborating modules (`network.py`, `state.py`,
`action.py`, `loader.py`) and the numpy random generator are not part of the
provided source; their interfaces are modelled from the specification, each
such definition carrying a doc comment starting with `Modelled from the
spec:`.
-/

namespace CAS

/-- A machine address is a pair (subnet id, host id). -/
abbrev Address := Nat × Nat

/-- Modelled from the spec: the agent's belief about one service on one
machine, an entry of the per-machine service-belief vector kept by the
missing `state.py`: unknown, present or absent. -/
inductive SInfo where
  | unknown
  | present
  | absent
deriving DecidableEq, Repr

/-- Modelled from the spec: the Knowledge State kept by the missing
`state.py` — the compromised set, the reachable set and the per-machine
per-service belief vector, each represented as a total map on addresses. -/
structure State where
  compromised : Address → Bool
  reachable : Address → Bool
  service_belief : Address → Nat → SInfo

/-- Modelled from the spec: `State.update_service` of the missing
`state.py` sets the belief entry for one service of one machine to the
concrete value determined by the boolean service-presence information. -/
def State.update_service (st : State) (target : Address) (s : Nat)
    (info : Bool) : State :=
  { st with
    service_belief := fun m i =>
      if m = target ∧ i = s then (if info then SInfo.present else SInfo.absent)
      else st.service_belief m i }

/-- Modelled from the spec: `State.set_compromised` of the missing
`state.py` marks one machine compromised. -/
def State.set_compromised (st : State) (target : Address) : State :=
  { st with
    compromised := fun m => if m = target then true else st.compromised m }

/-- Modelled from the spec: `State.set_reachable` of the missing
`state.py` marks one machine reachable. -/
def State.set_reachable (st : State) (target : Address) : State :=
  { st with
    reachable := fun m => if m = target then true else st.reachable m }

/-- An action of the catalogue: a scan or an exploit of one service on one
target machine, with a fixed cost and success probability (the fields of
the missing `action.py`, whose `is_scan` method is modelled as a field;
the `service` field is meaningful only for exploits). -/
structure Action where
  target : Address
  cost : Rat
  prob : Rat
  service : Nat
  is_scan : Bool

/-- Modelled from the spec: the read-only Topology handed over by the
missing `network.py` — the ordered address space, the sensitive-machine
designation, the undirected subnet adjacency used for reachability
propagation, the firewall admission function (source subnet, destination
subnet, service), the ground-truth service vector of each machine and the
configured value of each machine. -/
structure Network where
  address_space : List Address
  sensitive_machines : List Address
  subnets_connected : Nat → Nat → Bool
  traffic_permitted : Nat → Nat → Nat → Bool
  services : Address → List Bool
  value : Address → Rat

/-- Modelled from the spec: `Network.perform_action` of the missing
`network.py` resolves an action against the ground truth.  A scan always
succeeds, has zero intrinsic value and yields the full service vector of
the target.  An exploit succeeds iff its service actually runs on the
target; on success it yields the target's configured value and the full
service vector, on failure it yields nothing. -/
def Network.perform_action (net : Network) (a : Action) :
    Bool × Rat × List Bool :=
  if a.is_scan then (true, 0, net.services a.target)
  else if (net.services a.target).getD a.service false then
    (true, net.value a.target, net.services a.target)
  else (false, 0, [])

/-- Modelled from the spec: `loader.INTERNET`, the identifier of the
distinguished ingress subnet, from the missing `loader.py`. -/
def INTERNET : Nat := 0

/-- Modelled from the spec: the draw sequence of the numpy pseudorandom
generator, seeded once at environment construction; `nprand seed n` is the
n-th uniform draw in [0,1) produced by `np.random.rand` after
`np.random.seed seed`.  The concrete formula is an arbitrary deterministic
stand-in; the development only uses that it is a function of the seed and
the draw index with values in [0,1). -/
def nprand (seed n : Nat) : Rat :=
  mkRat ((seed * 7919 + n * 104729 + 12345) % 65537 : Nat) 65537

/-- The immutable part of a `CyberAttackSimulatorEnv`: the network, the
number of services and the random seed fixed at construction
(`environment.py` lines 33–69). -/
structure Env where
  network : Network
  num_services : Nat
  seed : Nat

/-- The mutable part of a `CyberAttackSimulatorEnv`: the current Knowledge
State, the set of compromised subnets (a list with set-membership
semantics) and the number of random draws consumed so far by the
process-wide generator. -/
structure EnvState where
  current_state : State
  compromised_subnets : List Nat
  rng_index : Nat

/-- Modelled from the spec: `State.generate_initial_state` of the missing
`state.py` — no machine compromised, no service information, and exactly
the machines of subnets adjacent to the ingress subnet reachable. -/
def generate_initial_state (net : Network) : State :=
  { compromised := fun _ => false
    reachable := fun m => net.subnets_connected INTERNET m.1
    service_belief := fun _ _ => SInfo.unknown }

/-- `CyberAttackSimulatorEnv.reset` (environment.py lines 131–140):
restore the initial Knowledge State and the ingress-only compromised
subnet set.  The process-wide random generator is not re-seeded. -/
def reset (env : Env) (es : EnvState) : EnvState :=
  { es with
    current_state := generate_initial_state env.network
    compromised_subnets := [INTERNET] }

/-- The environment state right after construction (`__init__` seeds the
generator, so no draw has been consumed yet, and then calls `reset`). -/
def initialEnvState (env : Env) : EnvState :=
  reset env { current_state := generate_initial_state env.network
              compromised_subnets := [INTERNET]
              rng_index := 0 }

/-- `CyberAttackSimulatorEnv._action_traffic_permitted` (environment.py
lines 262–283): an action on an unreachable target is never permitted, a
scan is always permitted, and an exploit is permitted iff some compromised
subnet has firewall admission to the target's subnet for the action's
service. -/
def action_traffic_permitted (env : Env) (es : EnvState) (a : Action) :
    Bool :=
  if es.current_state.reachable a.target = false then false
  else if a.is_scan = true then true
  else es.compromised_subnets.any fun src =>
    env.network.traffic_permitted src a.target.1 a.service

/-- The loop body of `CyberAttackSimulatorEnv._update_reachable`
(environment.py lines 316–321): skip machines already reachable, mark a
machine reachable when its subnet is connected to the newly compromised
subnet. -/
def update_reachable_step (env : Env) (comp_subnet : Nat) (st : State)
    (m : Address) : State :=
  if st.reachable m = true then st
  else if env.network.subnets_connected comp_subnet m.1 = true then
    st.set_reachable m
  else st

/-- `CyberAttackSimulatorEnv._update_reachable` (environment.py lines
307–321): fold the loop body over the address space. -/
def update_reachable (env : Env) (st : State) (compromised_m : Address) :
    State :=
  env.network.address_space.foldl
    (update_reachable_step env compromised_m.1) st

/-- The service-revelation loop of `_update_state` (environment.py lines
298–299): `update_service` applied to index `i`, `i+1`, ... for the
successive entries of the gained service vector. -/
def updateServicesFrom (st : State) (target : Address) (i : Nat) :
    List Bool → State
  | [] => st
  | b :: rest =>
    updateServicesFrom (st.update_service target i b) target (i + 1) rest

/-- `CyberAttackSimulatorEnv._update_state` (environment.py lines
285–305): on a scan or a successful exploit reveal the full gained service
vector; additionally, on a successful exploit mark the target compromised,
add its subnet to the compromised subnets and propagate reachability.  An
unsuccessful exploit changes nothing. -/
def update_state (env : Env) (es : EnvState) (a : Action) (success : Bool)
    (services : List Bool) : EnvState :=
  if (a.is_scan || (!a.is_scan && success)) = true then
    let st1 := updateServicesFrom es.current_state a.target 0 services
    if (!a.is_scan) = true then
      { es with
        current_state := update_reachable env (st1.set_compromised a.target)
          a.target
        compromised_subnets := a.target.1 :: es.compromised_subnets }
    else { es with current_state := st1 }
  else es

/-- `CyberAttackSimulatorEnv._is_goal` (environment.py lines 323–335):
true iff every sensitive machine is compromised. -/
def is_goal (env : Env) (es : EnvState) : Bool :=
  env.network.sensitive_machines.all fun m => es.current_state.compromised m

/-- `CyberAttackSimulatorEnv.step` (environment.py lines 142–173).  Three
gates — reachability, traffic admission, probabilistic resolution — each
early-return the unchanged state with reward `0 - cost`; the random
generator is consulted exactly at the third gate (so any action reaching
it consumes one draw).  Past the gates, the action is resolved against the
network, the value is suppressed for an already compromised target, the
Knowledge State is mutated and the goal test gives the terminal flag. -/
def step (env : Env) (es : EnvState) (a : Action) :
    EnvState × Rat × Bool :=
  if es.current_state.reachable a.target = false then
    (es, 0 - a.cost, false)
  else if action_traffic_permitted env es a = false then
    (es, 0 - a.cost, false)
  else if nprand env.seed es.rng_index > a.prob then
    ({ es with rng_index := es.rng_index + 1 }, 0 - a.cost, false)
  else
    let es1 : EnvState := { es with rng_index := es.rng_index + 1 }
    let r := env.network.perform_action a
    let value : Rat :=
      if es1.current_state.compromised a.target = true then 0 else r.2.1
    let es2 := update_state env es1 a r.1 r.2.2
    let done := is_goal env es2
    (es2, value - a.cost, done)

/-- Run a sequence of steps, threading the environment state. -/
def runSteps (env : Env) (es : EnvState) : List Action → EnvState
  | [] => es
  | a :: rest => runSteps env (step env es a).1 rest

/-- Run a sequence of steps and record the (reward, terminal) outputs. -/
def runOutputs (env : Env) (es : EnvState) : List Action → List (Rat × Bool)
  | [] => []
  | a :: rest =>
    ((step env es a).2.1, (step env es a).2.2) ::
      runOutputs env (step env es a).1 rest

/-- Environment construction from a configuration (network and number of
services) and a seed (`__init__`, environment.py lines 33–69): the seed is
fixed once and is the only input of the random stream. -/
def mkEnv (net : Network) (num_services seed : Nat) : Env :=
  { network := net, num_services := num_services, seed := seed }

/-! ### Basic lemmas about the modelled collaborators -/

/-- Every draw of the modelled generator is nonnegative. -/
theorem nprand_nonneg (seed n : Nat) : 0 ≤ nprand seed n := by
  unfold nprand
  rw [Rat.mkRat_eq_div]
  positivity

/-- Every draw of the modelled generator is below 1. -/
theorem nprand_lt_one (seed n : Nat) : nprand seed n < 1 := by
  unfold nprand
  rw [Rat.mkRat_eq_div]
  rw [div_lt_one (by norm_num)]
  have h : (seed * 7919 + n * 104729 + 12345) % 65537 < 65537 :=
    Nat.mod_lt _ (by norm_num)
  exact_mod_cast h

theorem update_service_compromised (st : State) (t : Address) (s : Nat)
    (info : Bool) : (st.update_service t s info).compromised = st.compromised :=
  rfl

theorem update_service_reachable (st : State) (t : Address) (s : Nat)
    (info : Bool) : (st.update_service t s info).reachable = st.reachable :=
  rfl

theorem set_compromised_belief (st : State) (t : Address) :
    (st.set_compromised t).service_belief = st.service_belief := rfl

theorem set_compromised_reachable (st : State) (t : Address) :
    (st.set_compromised t).reachable = st.reachable := rfl

theorem set_reachable_compromised (st : State) (t : Address) :
    (st.set_reachable t).compromised = st.compromised := rfl

theorem set_reachable_belief (st : State) (t : Address) :
    (st.set_reachable t).service_belief = st.service_belief := rfl

/-! ### The service-revelation loop -/

/-- Pointwise characterisation of the service-revelation loop: entry
`(m, j)` becomes the concrete value read off the gained vector when `m` is
the target and `j` falls in the written window, and is untouched
otherwise. -/
theorem updateServicesFrom_belief (t m : Address) (j : Nat) :
    ∀ (l : List Bool) (st : State) (i0 : Nat),
      (updateServicesFrom st t i0 l).service_belief m j =
        if m = t ∧ i0 ≤ j ∧ j < i0 + l.length then
          (if l.getD (j - i0) false then SInfo.present else SInfo.absent)
        else st.service_belief m j := by
  intro l
  induction l with
  | nil =>
    intro st i0
    have h : ¬ (m = t ∧ i0 ≤ j ∧ j < i0 + ([] : List Bool).length) := by
      rintro ⟨-, h1, h2⟩
      simp only [List.length_nil, Nat.add_zero] at h2
      omega
    simp only [updateServicesFrom]
    rw [if_neg h]
  | cons b rest ih =>
    intro st i0
    rw [updateServicesFrom, ih]
    by_cases hm : m = t
    · subst hm
      by_cases hlo : i0 + 1 ≤ j
      · by_cases hhi : j < i0 + 1 + rest.length
        · have hc1 : m = m ∧ i0 + 1 ≤ j ∧ j < i0 + 1 + rest.length :=
            ⟨rfl, hlo, hhi⟩
          have hc2 : m = m ∧ i0 ≤ j ∧ j < i0 + (b :: rest).length :=
            ⟨rfl, by omega, by simp only [List.length_cons]; omega⟩
          rw [if_pos hc1, if_pos hc2]
          have hidx : j - i0 = (j - (i0 + 1)) + 1 := by omega
          rw [hidx, List.getD_cons_succ]
        · have hc1 : ¬ (m = m ∧ i0 + 1 ≤ j ∧ j < i0 + 1 + rest.length) := by
            rintro ⟨-, -, h⟩; exact hhi h
          have hc2 : ¬ (m = m ∧ i0 ≤ j ∧ j < i0 + (b :: rest).length) := by
            rintro ⟨-, -, h⟩
            simp only [List.length_cons] at h
            omega
          rw [if_neg hc1, if_neg hc2]
          have hj : ¬ j = i0 := by omega
          simp [State.update_service, hj]
      · have hc1 : ¬ (m = m ∧ i0 + 1 ≤ j ∧ j < i0 + 1 + rest.length) := by
          rintro ⟨-, h, -⟩; exact hlo h
        rw [if_neg hc1]
        by_cases hj : j = i0
        · subst hj
          have hc2 : m = m ∧ j ≤ j ∧ j < j + (b :: rest).length :=
            ⟨rfl, le_refl j, by simp only [List.length_cons]; omega⟩
          rw [if_pos hc2]
          simp [State.update_service, Nat.sub_self]
        · have hc2 : ¬ (m = m ∧ i0 ≤ j ∧ j < i0 + (b :: rest).length) := by
            rintro ⟨-, h1, -⟩; omega
          rw [if_neg hc2]
          simp [State.update_service, hj]
    · have hc1 : ¬ (m = t ∧ i0 + 1 ≤ j ∧ j < i0 + 1 + rest.length) := by
        rintro ⟨h, -, -⟩; exact hm h
      have hc2 : ¬ (m = t ∧ i0 ≤ j ∧ j < i0 + (b :: rest).length) := by
        rintro ⟨h, -, -⟩; exact hm h
      have hj : ¬ (m = t ∧ j = i0) := by rintro ⟨h, -⟩; exact hm h
      rw [if_neg hc1, if_neg hc2]
      simp [State.update_service, hj]

theorem updateServicesFrom_compromised (t : Address) :
    ∀ (l : List Bool) (st : State) (i0 : Nat),
      (updateServicesFrom st t i0 l).compromised = st.compromised := by
  intro l
  induction l with
  | nil => intro st i0; rfl
  | cons b rest ih =>
    intro st i0
    rw [updateServicesFrom, ih, update_service_compromised]

theorem updateServicesFrom_reachable (t : Address) :
    ∀ (l : List Bool) (st : State) (i0 : Nat),
      (updateServicesFrom st t i0 l).reachable = st.reachable := by
  intro l
  induction l with
  | nil => intro st i0; rfl
  | cons b rest ih =>
    intro st i0
    rw [updateServicesFrom, ih, update_service_reachable]

/-! ### The reachability-propagation loop -/

/-- One iteration of the propagation loop, pointwise on `reachable`. -/
theorem update_reachable_step_reachable (env : Env) (c : Nat) (st : State)
    (x m : Address) :
    (update_reachable_step env c st x).reachable m =
      (st.reachable m ||
        (decide (m = x) && env.network.subnets_connected c x.1)) := by
  unfold update_reachable_step
  by_cases hx : st.reachable x = true
  · rw [if_pos hx]
    by_cases hmx : m = x
    · subst hmx; simp [hx]
    · simp [hmx]
  · rw [if_neg hx]
    by_cases hc : env.network.subnets_connected c x.1 = true
    · rw [if_pos hc]
      by_cases hmx : m = x
      · subst hmx; simp [State.set_reachable, hc]
      · simp [State.set_reachable, hmx]
    · rw [if_neg hc]
      by_cases hmx : m = x
      · subst hmx
        simp only [Bool.not_eq_true] at hx hc
        simp [hx, hc]
      · simp [hmx]

theorem update_reachable_step_compromised (env : Env) (c : Nat) (st : State)
    (x : Address) :
    (update_reachable_step env c st x).compromised = st.compromised := by
  unfold update_reachable_step
  split
  · rfl
  · split <;> rfl

theorem update_reachable_step_belief (env : Env) (c : Nat) (st : State)
    (x : Address) :
    (update_reachable_step env c st x).service_belief = st.service_belief := by
  unfold update_reachable_step
  split
  · rfl
  · split <;> rfl

/-- Pointwise characterisation of the whole propagation fold over any
machine list: a machine is reachable afterwards iff it was before or it
occurs in the list with its subnet connected to the compromised one. -/
theorem foldl_update_reachable_reachable (env : Env) (c : Nat) (m : Address) :
    ∀ (l : List Address) (st : State),
      ((l.foldl (update_reachable_step env c) st).reachable m) =
        (st.reachable m ||
          (decide (m ∈ l) && env.network.subnets_connected c m.1)) := by
  intro l
  induction l with
  | nil => intro st; simp
  | cons x xs ih =>
    intro st
    rw [List.foldl_cons, ih, update_reachable_step_reachable]
    by_cases hmx : m = x
    · subst hmx
      simp [List.mem_cons]
      cases st.reachable m <;>
        cases env.network.subnets_connected c m.1 <;>
          cases decide (m ∈ xs) <;> simp
    · simp [List.mem_cons, hmx]

theorem foldl_update_reachable_compromised (env : Env) (c : Nat) :
    ∀ (l : List Address) (st : State),
      (l.foldl (update_reachable_step env c) st).compromised =
        st.compromised := by
  intro l
  induction l with
  | nil => intro st; rfl
  | cons x xs ih =>
    intro st
    rw [List.foldl_cons, ih, update_reachable_step_compromised]

theorem foldl_update_reachable_belief (env : Env) (c : Nat) :
    ∀ (l : List Address) (st : State),
      (l.foldl (update_reachable_step env c) st).service_belief =
        st.service_belief := by
  intro l
  induction l with
  | nil => intro st; rfl
  | cons x xs ih =>
    intro st
    rw [List.foldl_cons, ih, update_reachable_step_belief]

/-- `_update_reachable`, pointwise: afterwards a machine is reachable iff
it already was, or it is a machine of the network whose subnet is
connected to the newly compromised machine's subnet. -/
theorem update_reachable_reachable (env : Env) (st : State) (cm : Address)
    (m : Address) :
    (update_reachable env st cm).reachable m =
      (st.reachable m ||
        (decide (m ∈ env.network.address_space) &&
          env.network.subnets_connected cm.1 m.1)) :=
  foldl_update_reachable_reachable env cm.1 m env.network.address_space st

theorem update_reachable_compromised (env : Env) (st : State) (cm : Address) :
    (update_reachable env st cm).compromised = st.compromised :=
  foldl_update_reachable_compromised env cm.1 env.network.address_space st

theorem update_reachable_belief (env : Env) (st : State) (cm : Address) :
    (update_reachable env st cm).service_belief = st.service_belief :=
  foldl_update_reachable_belief env cm.1 env.network.address_space st

/-! ### Case equations for the step pipeline -/

theorem step_of_unreachable (env : Env) (es : EnvState) (a : Action)
    (h : es.current_state.reachable a.target = false) :
    step env es a = (es, 0 - a.cost, false) := by
  simp [step, h]

theorem step_of_not_permitted (env : Env) (es : EnvState) (a : Action)
    (h1 : es.current_state.reachable a.target = true)
    (h2 : action_traffic_permitted env es a = false) :
    step env es a = (es, 0 - a.cost, false) := by
  simp [step, h1, h2]

theorem step_of_prob_fail (env : Env) (es : EnvState) (a : Action)
    (h1 : es.current_state.reachable a.target = true)
    (h2 : action_traffic_permitted env es a = true)
    (h3 : nprand env.seed es.rng_index > a.prob) :
    step env es a =
      ({ es with rng_index := es.rng_index + 1 }, 0 - a.cost, false) := by
  simp [step, h1, h2, h3]

theorem step_of_success (env : Env) (es : EnvState) (a : Action)
    (h1 : es.current_state.reachable a.target = true)
    (h2 : action_traffic_permitted env es a = true)
    (h3 : ¬ nprand env.seed es.rng_index > a.prob) :
    step env es a =
      (update_state env { es with rng_index := es.rng_index + 1 } a
          (env.network.perform_action a).1 (env.network.perform_action a).2.2,
        (if es.current_state.compromised a.target = true then 0
          else (env.network.perform_action a).2.1) - a.cost,
        is_goal env
          (update_state env { es with rng_index := es.rng_index + 1 } a
            (env.network.perform_action a).1
            (env.network.perform_action a).2.2)) := by
  simp [step, h1, h2, h3]

/-! ### Effect of the state mutation stage -/

theorem update_state_scan (env : Env) (es : EnvState) (a : Action)
    (succ : Bool) (servs : List Bool) (hscan : a.is_scan = true) :
    update_state env es a succ servs =
      { es with
        current_state := updateServicesFrom es.current_state a.target 0 servs } := by
  simp [update_state, hscan]

theorem update_state_exploit_succ (env : Env) (es : EnvState) (a : Action)
    (servs : List Bool) (hscan : a.is_scan = false) :
    update_state env es a true servs =
      { es with
        current_state := update_reachable env
          ((updateServicesFrom es.current_state a.target 0 servs).set_compromised
            a.target) a.target
        compromised_subnets := a.target.1 :: es.compromised_subnets } := by
  simp [update_state, hscan]

theorem update_state_exploit_fail (env : Env) (es : EnvState) (a : Action)
    (servs : List Bool) (hscan : a.is_scan = false) :
    update_state env es a false servs = es := by
  simp [update_state, hscan]

/-! ### Goal test and traffic gate -/

theorem is_goal_iff (env : Env) (es : EnvState) :
    is_goal env es = true ↔
      ∀ m ∈ env.network.sensitive_machines,
        es.current_state.compromised m = true := by
  simp [is_goal, List.all_eq_true]

theorem traffic_permitted_of_scan (env : Env) (es : EnvState) (a : Action)
    (hreach : es.current_state.reachable a.target = true)
    (hscan : a.is_scan = true) :
    action_traffic_permitted env es a = true := by
  simp [action_traffic_permitted, hreach, hscan]

theorem traffic_permitted_exploit_iff (env : Env) (es : EnvState)
    (a : Action) (hreach : es.current_state.reachable a.target = true)
    (hscan : a.is_scan = false) :
    action_traffic_permitted env es a = true ↔
      ∃ s ∈ es.compromised_subnets,
        env.network.traffic_permitted s a.target.1 a.service = true := by
  simp [action_traffic_permitted, hreach, hscan, List.any_eq_true]

/-- For a successful exploit the gained service list is exactly the
target's ground-truth service vector. -/
theorem perform_action_succ_services (net : Network) (a : Action)
    (hscan : a.is_scan = false) (hsucc : (net.perform_action a).1 = true) :
    (net.perform_action a).2.2 = net.services a.target := by
  unfold Network.perform_action at *
  rw [if_neg (by simp [hscan])] at *
  by_cases h : (net.services a.target).getD a.service false = true
  · rw [if_pos h]
  · rw [if_neg h] at hsucc
    simp at hsucc

/-- For a scan the gained service list is exactly the target's
ground-truth service vector. -/
theorem perform_action_scan_services (net : Network) (a : Action)
    (hscan : a.is_scan = true) :
    (net.perform_action a).2.2 = net.services a.target := by
  simp [Network.perform_action, hscan]

/-! ### Monotonicity infrastructure -/

/-- Accuracy invariant: every concrete belief entry agrees with the
ground-truth service vector of the network. -/
def beliefs_ok (env : Env) (st : State) : Prop :=
  ∀ m j, st.service_belief m j ≠ SInfo.unknown →
    st.service_belief m j =
      (if (env.network.services m).getD j false then SInfo.present
        else SInfo.absent)

/-- Knowledge-state `s2` is at least as informed as `s1`: compromised and
reachable sets have not shrunk, and no concrete belief entry has
changed. -/
def mono_between (s1 s2 : State) : Prop :=
  (∀ m, s1.compromised m = true → s2.compromised m = true) ∧
  (∀ m, s1.reachable m = true → s2.reachable m = true) ∧
  (∀ m j, s1.service_belief m j ≠ SInfo.unknown →
    s2.service_belief m j = s1.service_belief m j)

theorem mono_between_refl (s : State) : mono_between s s :=
  ⟨fun _ h => h, fun _ h => h, fun _ _ _ => rfl⟩

theorem mono_between_trans {s1 s2 s3 : State} (h12 : mono_between s1 s2)
    (h23 : mono_between s2 s3) : mono_between s1 s3 := by
  refine ⟨fun m h => h23.1 m (h12.1 m h), fun m h => h23.2.1 m (h12.2.1 m h),
    fun m j h => ?_⟩
  have e12 := h12.2.2 m j h
  have e23 := h23.2.2 m j (by rw [e12]; exact h)
  rw [e23, e12]

/-- Revealing the ground-truth vector of any machine is monotone and keeps
the accuracy invariant. -/
theorem revelation_mono (env : Env) (st : State) (t : Address)
    (hok : beliefs_ok env st) :
    mono_between st (updateServicesFrom st t 0 (env.network.services t)) ∧
      beliefs_ok env (updateServicesFrom st t 0 (env.network.services t)) := by
  constructor
  · refine ⟨?_, ?_, ?_⟩
    · intro m h; rw [updateServicesFrom_compromised]; exact h
    · intro m h; rw [updateServicesFrom_reachable]; exact h
    · intro m j h
      rw [updateServicesFrom_belief]
      by_cases hc : m = t ∧ 0 ≤ j ∧ j < 0 + (env.network.services t).length
      · rw [if_pos hc]
        have := hok m j h
        rw [this]
        obtain ⟨hm, -, -⟩ := hc
        subst hm
        simp
      · rw [if_neg hc]
  · intro m j h
    rw [updateServicesFrom_belief] at h ⊢
    by_cases hc : m = t ∧ 0 ≤ j ∧ j < 0 + (env.network.services t).length
    · rw [if_pos hc]
      obtain ⟨hm, -, -⟩ := hc
      subst hm
      simp
    · rw [if_neg hc] at h ⊢
      exact hok m j h

/-- One `step` is monotone on the Knowledge State and preserves the
accuracy invariant. -/
theorem step_mono (env : Env) (es : EnvState) (a : Action)
    (hok : beliefs_ok env es.current_state) :
    mono_between es.current_state (step env es a).1.current_state ∧
      beliefs_ok env (step env es a).1.current_state := by
  by_cases h1 : es.current_state.reachable a.target = false
  · rw [step_of_unreachable env es a h1]
    exact ⟨mono_between_refl _, hok⟩
  · have h1' : es.current_state.reachable a.target = true := by
      revert h1; cases es.current_state.reachable a.target <;> simp
    by_cases h2 : action_traffic_permitted env es a = false
    · rw [step_of_not_permitted env es a h1' h2]
      exact ⟨mono_between_refl _, hok⟩
    · have h2' : action_traffic_permitted env es a = true := by
        revert h2; cases action_traffic_permitted env es a <;> simp
      by_cases h3 : nprand env.seed es.rng_index > a.prob
      · rw [step_of_prob_fail env es a h1' h2' h3]
        exact ⟨mono_between_refl _, hok⟩
      · rw [step_of_success env es a h1' h2' h3]
        by_cases hscan : a.is_scan = true
        · rw [update_state_scan env _ a _ _ hscan,
            perform_action_scan_services env.network a hscan]
          exact revelation_mono env es.current_state a.target hok
        · have hscan' : a.is_scan = false := by
            revert hscan; cases a.is_scan <;> simp
          by_cases hsucc : (env.network.perform_action a).1 = true
          · rw [hsucc, update_state_exploit_succ env _ a _ hscan',
              perform_action_succ_services env.network a hscan' hsucc]
            obtain ⟨hmono1, hok1⟩ :=
              revelation_mono env es.current_state a.target hok
            set st1 :=
              updateServicesFrom es.current_state a.target 0
                (env.network.services a.target) with hst1
            have hmono2 : mono_between st1 (st1.set_compromised a.target) := by
              refine ⟨?_, ?_, ?_⟩
              · intro m h
                simp only [State.set_compromised]
                by_cases hm : m = a.target <;> simp [hm, h]
              · intro m h
                rw [set_compromised_reachable]; exact h
              · intro m j h
                rw [set_compromised_belief]
            have hok2 : beliefs_ok env (st1.set_compromised a.target) := by
              intro m j h
              rw [set_compromised_belief] at h ⊢
              exact hok1 m j h
            have hmono3 : mono_between (st1.set_compromised a.target)
                (update_reachable env (st1.set_compromised a.target)
                  a.target) := by
              refine ⟨?_, ?_, ?_⟩
              · intro m h
                rw [update_reachable_compromised]; exact h
              · intro m h
                rw [update_reachable_reachable, h, Bool.true_or]
              · intro m j h
                rw [update_reachable_belief]
            have hok3 : beliefs_ok env
                (update_reachable env (st1.set_compromised a.target)
                  a.target) := by
              intro m j h
              rw [update_reachable_belief] at h ⊢
              exact hok2 m j h
            exact ⟨mono_between_trans hmono1 (mono_between_trans hmono2 hmono3),
              hok3⟩
          · have hsucc' : (env.network.perform_action a).1 = false := by
              revert hsucc; cases (env.network.perform_action a).1 <;> simp
            rw [hsucc', update_state_exploit_fail env _ a _ hscan']
            exact ⟨mono_between_refl _, hok⟩

/-- Running any action list is monotone and keeps the accuracy
invariant. -/
theorem runSteps_mono (env : Env) :
    ∀ (as : List Action) (es : EnvState),
      beliefs_ok env es.current_state →
        mono_between es.current_state (runSteps env es as).current_state ∧
          beliefs_ok env (runSteps env es as).current_state := by
  intro as
  induction as with
  | nil => intro es hok; exact ⟨mono_between_refl _, hok⟩
  | cons a rest ih =>
    intro es hok
    rw [runSteps]
    obtain ⟨hm1, hok1⟩ := step_mono env es a hok
    obtain ⟨hm2, hok2⟩ := ih (step env es a).1 hok1
    exact ⟨mono_between_trans hm1 hm2, hok2⟩

/-- The freshly reset Knowledge State satisfies the accuracy invariant
(all entries unknown). -/
theorem initial_beliefs_ok (env : Env) :
    beliefs_ok env (initialEnvState env).current_state := by
  intro m j h
  simp [initialEnvState, reset, generate_initial_state] at h

/-! ### A small concrete network for witnesses

Subnet 0 is the ingress, adjacent to subnet 1; subnet 1 is adjacent to
subnet 2.  The firewall admits service 0 from subnet 0 to subnet 1 and
from subnet 1 to subnet 2.  Every machine runs service 0 and not service
1, is worth 10, and the sensitive machines are (1,0) and (2,0). -/

def net0 : Network where
  address_space := [(1, 0), (1, 1), (2, 0)]
  sensitive_machines := [(1, 0), (2, 0)]
  subnets_connected := fun a b =>
    (a == 0 && b == 1) || (a == 1 && b == 0) ||
      (a == 1 && b == 2) || (a == 2 && b == 1)
  traffic_permitted := fun src dst srv =>
    (src == 0 && dst == 1 && srv == 0) || (src == 1 && dst == 2 && srv == 0)
  services := fun _ => [true, false]
  value := fun _ => 10

def env0 : Env := mkEnv net0 2 1

def es0 : EnvState := initialEnvState env0

def scan10 : Action :=
  { target := (1, 0), cost := 1, prob := 1, service := 0, is_scan := true }

def exploit10 : Action :=
  { target := (1, 0), cost := 1, prob := 1, service := 0, is_scan := false }

def scan20 : Action :=
  { target := (2, 0), cost := 1, prob := 1, service := 0, is_scan := true }

/-- A Knowledge State in which both sensitive machines of `net0` are
already compromised and subnet 2 is still unreachable. -/
def st_goal : State :=
  { compromised := fun m => m.1 == 1 || m.1 == 2
    reachable := fun m => m.1 == 1
    service_belief := fun _ _ => SInfo.unknown }

def es_goal : EnvState :=
  { current_state := st_goal, compromised_subnets := [0, 1, 2], rng_index := 0 }

theorem update_state_rng_index (env : Env) (es : EnvState) (a : Action)
    (succ : Bool) (servs : List Bool) :
    (update_state env es a succ servs).rng_index = es.rng_index := by
  unfold update_state
  split_ifs <;> rfl

/-! ### The claims -/

/-- C1: for every action, if any gate fails — the target is unreachable,
or no compromised subnet has firewall admission (the traffic gate), or the
uniform draw exceeds the action's probability — then `step` returns
reward `-action.cost` and `terminal = false`, and the Knowledge State
(compromised set, reachable set, every service-belief entry, compromised
subnets) is completely unchanged. -/
theorem c1_early_return_frame (env : Env) (es : EnvState) (a : Action)
    (h : es.current_state.reachable a.target = false ∨
      action_traffic_permitted env es a = false ∨
      nprand env.seed es.rng_index > a.prob) :
    (step env es a).2.1 = -a.cost ∧ (step env es a).2.2 = false ∧
      (step env es a).1.current_state = es.current_state ∧
      (step env es a).1.compromised_subnets = es.compromised_subnets := by
  by_cases h1 : es.current_state.reachable a.target = false
  · rw [step_of_unreachable env es a h1]
    exact ⟨zero_sub _, rfl, rfl, rfl⟩
  · have h1' : es.current_state.reachable a.target = true := by
      revert h1; cases es.current_state.reachable a.target <;> simp
    by_cases h2 : action_traffic_permitted env es a = false
    · rw [step_of_not_permitted env es a h1' h2]
      exact ⟨zero_sub _, rfl, rfl, rfl⟩
    · have h2' : action_traffic_permitted env es a = true := by
        revert h2; cases action_traffic_permitted env es a <;> simp
      have h3 : nprand env.seed es.rng_index > a.prob := by
        rcases h with h | h | h
        · rw [h1'] at h; exact absurd h (by simp)
        · rw [h2'] at h; exact absurd h (by simp)
        · exact h
      rw [step_of_prob_fail env es a h1' h2' h3]
      exact ⟨zero_sub _, rfl, rfl, rfl⟩

/-- Witness for C1: from the initial state of the concrete network,
machine (2,0) is unreachable, so scanning it returns the cost-only
penalty, no termination and an untouched Knowledge State. -/
theorem c1_witness :
    es0.current_state.reachable scan20.target = false ∧
      ((step env0 es0 scan20).2.1 = -scan20.cost ∧
        (step env0 es0 scan20).2.2 = false ∧
        (step env0 es0 scan20).1.current_state = es0.current_state ∧
        (step env0 es0 scan20).1.compromised_subnets =
          es0.compromised_subnets) :=
  ⟨by decide, c1_early_return_frame env0 es0 scan20 (Or.inl (by decide))⟩

/-- C2: an exploit that passes all three gates and succeeds marks the
target compromised, adds the target's subnet to the compromised subnets,
and makes reachable exactly the machines of subnets connected (Topology
adjacency, not firewall) to the target's subnet — pointwise over the
address space, a machine is reachable after the step iff it was reachable
before or its subnet is connected to the target's subnet, so no
non-adjacent previously-unreachable machine becomes reachable. -/
theorem c2_exploit_success_effects (env : Env) (es : EnvState) (a : Action)
    (hscan : a.is_scan = false)
    (h1 : es.current_state.reachable a.target = true)
    (h2 : action_traffic_permitted env es a = true)
    (h3 : ¬ nprand env.seed es.rng_index > a.prob)
    (hsucc : (env.network.perform_action a).1 = true) :
    (step env es a).1.current_state.compromised a.target = true ∧
      a.target.1 ∈ (step env es a).1.compromised_subnets ∧
      ∀ m ∈ env.network.address_space,
        (step env es a).1.current_state.reachable m =
          (es.current_state.reachable m ||
            env.network.subnets_connected a.target.1 m.1) := by
  rw [step_of_success env es a h1 h2 h3, hsucc,
    update_state_exploit_succ env _ a _ hscan]
  refine ⟨?_, ?_, ?_⟩
  · rw [update_reachable_compromised]
    simp [State.set_compromised]
  · exact List.mem_cons_self _ _
  · intro m hm
    rw [update_reachable_reachable, set_compromised_reachable,
      updateServicesFrom_reachable]
    simp [hm]

/-- Witness for C2: exploiting (1,0) from the initial state compromises
it, adds subnet 1, and propagates reachability exactly along adjacency. -/
theorem c2_witness :
    (env0.network.perform_action exploit10).1 = true ∧
      ((step env0 es0 exploit10).1.current_state.compromised
          exploit10.target = true ∧
        exploit10.target.1 ∈ (step env0 es0 exploit10).1.compromised_subnets ∧
        ∀ m ∈ env0.network.address_space,
          (step env0 es0 exploit10).1.current_state.reachable m =
            (es0.current_state.reachable m ||
              env0.network.subnets_connected exploit10.target.1 m.1)) :=
  ⟨by decide,
    c2_exploit_success_effects env0 es0 exploit10 rfl (by decide) (by decide)
      (by decide) (by decide)⟩

/-- C3: a step that passes all three gates returns `terminal = true` iff
every sensitive machine is compromised in the Knowledge State after the
step's mutation. -/
theorem c3_terminal_iff_goal (env : Env) (es : EnvState) (a : Action)
    (h1 : es.current_state.reachable a.target = true)
    (h2 : action_traffic_permitted env es a = true)
    (h3 : ¬ nprand env.seed es.rng_index > a.prob) :
    (step env es a).2.2 = true ↔
      ∀ m ∈ env.network.sensitive_machines,
        (step env es a).1.current_state.compromised m = true := by
  rw [step_of_success env es a h1 h2 h3]
  exact is_goal_iff env _

/-- Witness for C3: the first exploit from the initial state passes every
gate, and the theorem's equivalence holds there. -/
theorem c3_witness :
    action_traffic_permitted env0 es0 exploit10 = true ∧
      ((step env0 es0 exploit10).2.2 = true ↔
        ∀ m ∈ env0.network.sensitive_machines,
          (step env0 es0 exploit10).1.current_state.compromised m = true) :=
  ⟨by decide,
    c3_terminal_iff_goal env0 es0 exploit10 (by decide) (by decide)
      (by decide)⟩

/-- C4: across any sequence of steps within an episode (starting from the
reset state), the compromised and reachable sets are monotonically
non-decreasing and every service-belief entry, once concrete, never
changes — stated between any earlier point (after the actions `as1`) and
any later point (after the further actions `as2`) of the episode. -/
theorem c4_monotonicity (env : Env) (as1 as2 : List Action) :
    mono_between (runSteps env (initialEnvState env) as1).current_state
      (runSteps env (runSteps env (initialEnvState env) as1) as2).current_state := by
  obtain ⟨-, hok1⟩ :=
    runSteps_mono env as1 (initialEnvState env) (initial_beliefs_ok env)
  exact (runSteps_mono env as2 (runSteps env (initialEnvState env) as1) hok1).1

/-- Witness for C4: monotonicity between the state after one scan and the
state after that scan followed by an exploit, on the concrete network. -/
theorem c4_witness :
    mono_between (runSteps env0 (initialEnvState env0) [scan10]).current_state
      (runSteps env0 (runSteps env0 (initialEnvState env0) [scan10])
        [exploit10]).current_state :=
  c4_monotonicity env0 [scan10] [exploit10]

/-- C5: for a reachable target, the traffic-admission gate always passes
for a Scan, and for an Exploit it passes iff some compromised subnet has
firewall admission to the target's subnet for the action's service —
existential over the compromised subnets, independent of order. -/
theorem c5_admission_gate (env : Env) (es : EnvState) (a : Action)
    (hreach : es.current_state.reachable a.target = true) :
    (a.is_scan = true → action_traffic_permitted env es a = true) ∧
      (a.is_scan = false →
        (action_traffic_permitted env es a = true ↔
          ∃ s ∈ es.compromised_subnets,
            env.network.traffic_permitted s a.target.1 a.service = true)) :=
  ⟨fun hscan => traffic_permitted_of_scan env es a hreach hscan,
    fun hscan => traffic_permitted_exploit_iff env es a hreach hscan⟩

/-- Witness for C5: the admission characterisation at the reachable
machine (1,0) of the concrete network's initial state. -/
theorem c5_witness :
    es0.current_state.reachable exploit10.target = true ∧
      ((exploit10.is_scan = true →
          action_traffic_permitted env0 es0 exploit10 = true) ∧
        (exploit10.is_scan = false →
          (action_traffic_permitted env0 es0 exploit10 = true ↔
            ∃ s ∈ es0.compromised_subnets,
              env0.network.traffic_permitted s exploit10.target.1
                exploit10.service = true))) :=
  ⟨by decide, c5_admission_gate env0 es0 exploit10 (by decide)⟩

/-- C6: for every action whose target is already compromised at the start
of the step, the returned reward is exactly `-action.cost`, regardless of
the action kind and of the random draw: on every early exit the reward is
the cost-only penalty, and on the full pipeline the value component is
suppressed to 0. -/
theorem c6_no_value_on_compromised (env : Env) (es : EnvState) (a : Action)
    (hcomp : es.current_state.compromised a.target = true) :
    (step env es a).2.1 = -a.cost := by
  by_cases h1 : es.current_state.reachable a.target = false
  · rw [step_of_unreachable env es a h1]
    exact zero_sub _
  · have h1' : es.current_state.reachable a.target = true := by
      revert h1; cases es.current_state.reachable a.target <;> simp
    by_cases h2 : action_traffic_permitted env es a = false
    · rw [step_of_not_permitted env es a h1' h2]
      exact zero_sub _
    · have h2' : action_traffic_permitted env es a = true := by
        revert h2; cases action_traffic_permitted env es a <;> simp
      by_cases h3 : nprand env.seed es.rng_index > a.prob
      · rw [step_of_prob_fail env es a h1' h2' h3]
        exact zero_sub _
      · rw [step_of_success env es a h1' h2' h3]
        rw [if_pos hcomp]
        exact zero_sub _

/-- Witness for C6: re-exploiting the already compromised machine (1,0)
yields reward `-cost` even though the exploit passes every gate. -/
theorem c6_witness :
    es_goal.current_state.compromised exploit10.target = true ∧
      (step env0 es_goal exploit10).2.1 = -exploit10.cost :=
  ⟨by decide, c6_no_value_on_compromised env0 es_goal exploit10 (by decide)⟩

/-- C7: a Scan with probability 1 on a reachable target never fails the
probabilistic gate (every draw lies below 1), and it reveals the full
ground-truth service vector of the target; the same full revelation holds
for an Exploit that passes the gates and succeeds. -/
theorem c7_full_revelation (env : Env) (es : EnvState) (a : Action)
    (hreach : es.current_state.reachable a.target = true)
    (hcase : (a.is_scan = true ∧ a.prob = 1) ∨
      (a.is_scan = false ∧ action_traffic_permitted env es a = true ∧
        ¬ nprand env.seed es.rng_index > a.prob ∧
        (env.network.perform_action a).1 = true)) :
    (a.is_scan = true → ¬ nprand env.seed es.rng_index > a.prob) ∧
      ∀ j < (env.network.services a.target).length,
        (step env es a).1.current_state.service_belief a.target j =
          (if (env.network.services a.target).getD j false then SInfo.present
            else SInfo.absent) := by
  rcases hcase with ⟨hscan, hprob⟩ | ⟨hscan, hperm, hprob, hsucc⟩
  · have hnp : ¬ nprand env.seed es.rng_index > a.prob := by
      rw [hprob]
      exact not_lt.mpr (le_of_lt (nprand_lt_one _ _))
    refine ⟨fun _ => hnp, ?_⟩
    have hperm := traffic_permitted_of_scan env es a hreach hscan
    rw [step_of_success env es a hreach hperm hnp,
      update_state_scan env _ a _ _ hscan,
      perform_action_scan_services env.network a hscan]
    intro j hj
    rw [updateServicesFrom_belief,
      if_pos ⟨rfl, Nat.zero_le j, by omega⟩, Nat.sub_zero]
  · refine ⟨fun h => absurd h (by simp [hscan]), ?_⟩
    rw [step_of_success env es a hreach hperm hprob, hsucc,
      update_state_exploit_succ env _ a _ hscan,
      perform_action_succ_services env.network a hscan hsucc]
    intro j hj
    rw [update_reachable_belief, set_compromised_belief,
      updateServicesFrom_belief,
      if_pos ⟨rfl, Nat.zero_le j, by omega⟩, Nat.sub_zero]

/-- Witness for C7: scanning (1,0) from the initial state reveals its full
service vector and the draw cannot exceed the scan probability 1. -/
theorem c7_witness :
    scan10.prob = 1 ∧
      ((scan10.is_scan = true →
          ¬ nprand env0.seed es0.rng_index > scan10.prob) ∧
        ∀ j < (env0.network.services scan10.target).length,
          (step env0 es0 scan10).1.current_state.service_belief
              scan10.target j =
            (if (env0.network.services scan10.target).getD j false then
              SInfo.present else SInfo.absent)) :=
  ⟨rfl, c7_full_revelation env0 es0 scan10 (by decide) (Or.inl ⟨rfl, rfl⟩)⟩

/-- C8: for a fixed seed and a fixed action sequence, two independently
constructed environments with the same configuration and seed, each reset
and then driven through that action sequence, produce identical
(reward, terminal) output sequences and identical final Knowledge States —
the seeded generator stream is a function of the seed alone, and `step`
reads no other varying input. -/
theorem c8_determinism (net1 net2 : Network) (ns1 ns2 seed1 seed2 : Nat)
    (as : List Action) (hnet : net1 = net2) (hns : ns1 = ns2)
    (hseed : seed1 = seed2) :
    runOutputs (mkEnv net1 ns1 seed1)
        (initialEnvState (mkEnv net1 ns1 seed1)) as =
      runOutputs (mkEnv net2 ns2 seed2)
        (initialEnvState (mkEnv net2 ns2 seed2)) as ∧
    runSteps (mkEnv net1 ns1 seed1)
        (initialEnvState (mkEnv net1 ns1 seed1)) as =
      runSteps (mkEnv net2 ns2 seed2)
        (initialEnvState (mkEnv net2 ns2 seed2)) as := by
  subst hnet
  subst hns
  subst hseed
  exact ⟨rfl, rfl⟩

/-- Witness for C8: two runs of scan-then-exploit on identically
configured and seeded environments coincide. -/
theorem c8_witness :
    runOutputs (mkEnv net0 2 1) (initialEnvState (mkEnv net0 2 1))
        [scan10, exploit10] =
      runOutputs (mkEnv net0 2 1) (initialEnvState (mkEnv net0 2 1))
        [scan10, exploit10] ∧
    runSteps (mkEnv net0 2 1) (initialEnvState (mkEnv net0 2 1))
        [scan10, exploit10] =
      runSteps (mkEnv net0 2 1) (initialEnvState (mkEnv net0 2 1))
        [scan10, exploit10] :=
  c8_determinism net0 net0 2 2 1 1 [scan10, exploit10] rfl rfl rfl

/-- C9 counterexample: a Scan does NOT leave the random generator
untouched.  From the initial state of the concrete network, scanning the
reachable machine (1,0) passes the reachability and admission gates,
reaches the probabilistic stage, and consumes one draw: the draw index
moves from 0 to 1. -/
theorem c9_counterexample :
    ¬ ((step env0 es0 scan10).1.rng_index = es0.rng_index) := by decide

/-- C9 (amended): the generator is consulted exactly once on every step —
Scan or Exploit — that passes the reachability and admission gates, and
never on a step that exits at one of those two gates.  (The code draws
`np.random.rand()` before comparing it with the probability, for scans as
well; a scan's draw simply can never exceed its probability 1.) -/
theorem c9_rng_consultation (env : Env) (es : EnvState) (a : Action) :
    (step env es a).1.rng_index =
      (if (es.current_state.reachable a.target &&
            action_traffic_permitted env es a) = true
        then es.rng_index + 1 else es.rng_index) := by
  by_cases h1 : es.current_state.reachable a.target = false
  · rw [step_of_unreachable env es a h1, h1]
    simp
  · have h1' : es.current_state.reachable a.target = true := by
      revert h1; cases es.current_state.reachable a.target <;> simp
    by_cases h2 : action_traffic_permitted env es a = false
    · rw [step_of_not_permitted env es a h1' h2, h1', h2]
      simp
    · have h2' : action_traffic_permitted env es a = true := by
        revert h2; cases action_traffic_permitted env es a <;> simp
      by_cases h3 : nprand env.seed es.rng_index > a.prob
      · rw [step_of_prob_fail env es a h1' h2' h3, h1', h2']
        simp
      · rw [step_of_success env es a h1' h2' h3, update_state_rng_index,
          h1', h2']
        simp

/-- C10: from a state in which the goal already holds (every sensitive
machine compromised), a step that exits early at the reachability,
admission or probabilistic gate still returns `terminal = false`: the
terminal flag reflects the goal only on calls that complete the full
pipeline. -/
theorem c10_early_terminal_false (env : Env) (es : EnvState) (a : Action)
    (hgoal : is_goal env es = true)
    (h : es.current_state.reachable a.target = false ∨
      action_traffic_permitted env es a = false ∨
      nprand env.seed es.rng_index > a.prob) :
    (step env es a).2.2 = false := by
  by_cases h1 : es.current_state.reachable a.target = false
  · rw [step_of_unreachable env es a h1]
  · have h1' : es.current_state.reachable a.target = true := by
      revert h1; cases es.current_state.reachable a.target <;> simp
    by_cases h2 : action_traffic_permitted env es a = false
    · rw [step_of_not_permitted env es a h1' h2]
    · have h2' : action_traffic_permitted env es a = true := by
        revert h2; cases action_traffic_permitted env es a <;> simp
      have h3 : nprand env.seed es.rng_index > a.prob := by
        rcases h with h | h | h
        · rw [h1'] at h; exact absurd h (by simp)
        · rw [h2'] at h; exact absurd h (by simp)
        · exact h
      rw [step_of_prob_fail env es a h1' h2' h3]

/-- Witness for C10: with both sensitive machines already compromised,
scanning the unreachable machine (2,0) returns `terminal = false` even
though the goal condition holds. -/
theorem c10_witness :
    is_goal env0 es_goal = true ∧ (step env0 es_goal scan20).2.2 = false :=
  ⟨by decide,
    c10_early_terminal_false env0 es_goal scan20 (by decide)
      (Or.inl (by decide))⟩

end CAS
